import Mathlib

set_option autoImplicit false

/-!
Verification development for the SplatToolsOSS frame-extraction editors.

The definitions below are a shallow embedding of the TypeScript sources:
the planar editor state hook (useEditor), the 360 editor state hook
(useEditor360), the 360 detection and view-generation utilities
(lib/video360.ts), the Laplacian-variance sharpness scorer, the analysis
drivers (runAnalysis, runMultiViewAnalysis) and the export-selection
filters of the two editor pages. JS numbers are modelled as exact
rationals; JS NaN results are modelled as Option.none where they can
arise (division by a zero count). State updates are modelled as pure
functions on explicit state records.
-/

namespace SplatTools

/-- One sharpness sample: a timestamp (seconds) and the Laplacian variance of
the decoded frame at that time. Mirrors the FrameData interface. -/
structure FrameData where
  time : ℚ
  variance : ℚ
deriving DecidableEq, Repr

/-- Range action tags of a timeline range. The TS union also admits null,
which is modelled as Option.none at the use site. -/
inductive RangeAction where
  | exclude
  | maskGeneration
  | highlight
deriving DecidableEq, Repr

/-- A user-defined timeline range with an optional action and mask prompt.
Mirrors the TimelineRange interface of both editors. -/
structure TimelineRange where
  id : String
  start : ℚ
  end_ : ℚ
  action : Option RangeAction
  maskPrompt : Option String
deriving DecidableEq, Repr

/-- The slice of the planar editor state (useEditor hook) that the analysis,
selection and range logic reads and writes. UI-only fields (zoom, HDR
probing, file names) are omitted; progress is an integer per Math.round. -/
structure EditorState where
  videoDuration : ℚ
  currentTime : ℚ
  isPlaying : Bool
  ranges : List TimelineRange
  selectedRangeId : Option String
  isProcessing : Bool
  progress : ℤ
  frameData : List FrameData
  fps : ℚ
  threshold : ℚ
deriving DecidableEq, Repr

/-- The initial planar editor state (initialState in useEditor). -/
def initialState : EditorState :=
  { videoDuration := 0
    currentTime := 0
    isPlaying := false
    ranges := []
    selectedRangeId := none
    isProcessing := false
    progress := 0
    frameData := []
    fps := 6
    threshold := 300 }

/-- Playback seek of the planar editor: clamps the requested time into
[0, videoDuration] exactly as Math.max(0, Math.min(time, videoDuration)). -/
def seek (time : ℚ) (st : EditorState) : EditorState :=
  { st with currentTime := max 0 (min time st.videoDuration) }

/-- A partial update to a timeline range, as produced by the TS
Partial type: absent fields leave the range field unchanged. -/
structure RangeUpdate where
  start : Option ℚ
  end_ : Option ℚ
  action : Option (Option RangeAction)
  maskPrompt : Option (Option String)
deriving Repr

/-- Spread-merge of a partial update into a range, as in the TS object
spread: present fields replace, absent fields are kept. No
renormalisation of the start/end order is performed. -/
def applyRangeUpdate (r : TimelineRange) (u : RangeUpdate) : TimelineRange :=
  { r with
    start := u.start.getD r.start
    end_ := u.end_.getD r.end_
    action := u.action.getD r.action
    maskPrompt := u.maskPrompt.getD r.maskPrompt }

/-- addRange of the planar editor: stores the two times in sorted order via
min/max, appends the new range and selects it. The random id generation is
passed in as an argument. -/
def addRange (start end_ : ℚ) (action : Option RangeAction) (newId : String)
    (st : EditorState) : EditorState :=
  let newRange : TimelineRange :=
    { id := newId, start := min start end_, end_ := max start end_,
      action := action, maskPrompt := none }
  { st with ranges := st.ranges ++ [newRange], selectedRangeId := some newId }

/-- updateRange of the planar editor: maps the partial update over the range
with the matching id, leaving the others unchanged. -/
def updateRange (id : String) (u : RangeUpdate) (st : EditorState) : EditorState :=
  { st with ranges := st.ranges.map fun r => if r.id = id then applyRangeUpdate r u else r }

/-- The reduce step of the maximum-variance computation:
frameData.reduce((max, item) => Math.max(max, item.variance), 0). -/
def foldlMax (fd : List FrameData) : ℚ :=
  fd.foldl (fun acc f => max acc f.variance) 0

/-- Maximum observed variance with the JS falsy fallback: the source computes
the reduce above and then applies the OR-1 fallback, so an empty list or an
all-zero list yields 1. -/
def maxVariance (fd : List FrameData) : ℚ :=
  if foldlMax fd = 0 then 1 else foldlMax fd

/-- Effective threshold used by the planar editor page and timeline:
min(configured threshold, maximum observed variance). -/
def effectiveThreshold (threshold : ℚ) (fd : List FrameData) : ℚ :=
  min threshold (maxVariance fd)

/-- Membership test of a time in the exclude ranges, exactly as in the export
handlers: filter the ranges with the exclude action, then test
start less-or-equal time and time less-or-equal end, inclusive at both ends. -/
def isTimeExcluded (ranges : List TimelineRange) (time : ℚ) : Bool :=
  (ranges.filter fun r => decide (r.action = some RangeAction.exclude)).any
    fun r => decide (r.start ≤ time) && decide (time ≤ r.end_)

/-- The eligibility filter shared by both export handlers: keep the frames
whose variance reaches the given threshold and whose time lies in no
exclude range. -/
def sharpFrames (fd : List FrameData) (threshold : ℚ) (ranges : List TimelineRange) :
    List FrameData :=
  fd.filter fun f => decide (threshold ≤ f.variance) && !isTimeExcluded ranges f.time

/-- The eligible frame set of the planar editor download handler, which
filters with the effective (clamped) threshold. -/
def sharpFramesPlanar (st : EditorState) : List FrameData :=
  sharpFrames st.frameData (effectiveThreshold st.threshold st.frameData) st.ranges

/-- Canonical cubemap face tags. -/
inductive CubemapFace where
  | px | nx | py | ny | pz | nz
deriving DecidableEq, Repr

/-- One camera view of the 360 editor, owning its analysis data, threshold
and ranges. Mirrors the FrameView interface. -/
structure FrameView where
  id : String
  name : String
  face : Option CubemapFace
  yaw : ℚ
  pitch : ℚ
  fov : ℚ
  frameData : List FrameData
  threshold : ℚ
  ranges : List TimelineRange
deriving DecidableEq, Repr

/-- The eligible frame set of the 360 editor download handler for the active
view: the source filters with the configured view threshold directly
(no clamping against the observed maximum). -/
def sharpFrames360 (v : FrameView) : List FrameData :=
  sharpFrames v.frameData v.threshold v.ranges

/-- Editor mode of the 360 editor. -/
inductive EditorMode where
  | skybox | custom
deriving DecidableEq, Repr

/-- Custom mode configuration. The frame count arrives from parseInt or the
slider, hence an integer. -/
structure CustomConfig where
  frameCount : ℤ
  rigPitch : ℚ
  startAngle : ℚ
  fov : ℚ
deriving DecidableEq, Repr

/-- Default custom configuration (DEFAULT_CUSTOM_CONFIG). -/
def DEFAULT_CUSTOM_CONFIG : CustomConfig :=
  { frameCount := 4, rigPitch := 0, startAngle := 0, fov := 90 }

/-- A generated view descriptor returned by generateCustomViews. -/
structure GeneratedView where
  name : String
  yaw : ℚ
  pitch : ℚ
  fov : ℚ
deriving DecidableEq, Repr

/-- Truncation of a rational toward zero, the rounding used by the JS
remainder operator. -/
def ratTrunc (q : ℚ) : ℤ :=
  if 0 ≤ q then ⌊q⌋ else -⌊-q⌋

/-- The JS remainder operator on numbers: a - b * trunc(a / b), so the result
carries the sign of the dividend. -/
def jsRem (a b : ℚ) : ℚ :=
  a - b * (ratTrunc (a / b) : ℚ)

/-- generateCustomViews of lib/video360.ts: frameCount views evenly spaced in
yaw starting at startAngle, each reduced by the JS remainder modulo 360,
sharing the rig pitch and fov. -/
def generateCustomViews (frameCount : ℤ) (rigPitch startAngle fov : ℚ) :
    List GeneratedView :=
  let angleStep : ℚ := 360 / (frameCount : ℚ)
  (List.range frameCount.toNat).map fun (i : ℕ) =>
    { name := "View " ++ toString (i + 1)
      yaw := jsRem (startAngle + (i : ℚ) * angleStep) 360
      pitch := rigPitch
      fov := fov }

/-- createCustomFrameViews of useEditor360: wraps the generated views into
fresh FrameView records with empty analysis data, threshold 300 and no
ranges. -/
def createCustomFrameViews (config : CustomConfig) : List FrameView :=
  (generateCustomViews config.frameCount config.rigPitch config.startAngle config.fov).enum.map
    fun p =>
      { id := "custom_" ++ toString p.1, name := p.2.name, face := none,
        yaw := p.2.yaw, pitch := p.2.pitch, fov := p.2.fov,
        frameData := [], threshold := 300, ranges := [] }

/-- The slice of the 360 editor state (useEditor360 hook) read and written by
the logic under verification. -/
structure Editor360State where
  videoDuration : ℚ
  currentTime : ℚ
  isPlaying : Bool
  editorMode : EditorMode
  frameViews : List FrameView
  activeFrameViewId : Option String
  customConfig : CustomConfig
  isProcessing : Bool
  progress : ℤ
  fps : ℚ
deriving DecidableEq, Repr

/-- A partial update to the custom configuration, as produced by the TS
Partial type. -/
structure CustomConfigUpdate where
  frameCount : Option ℤ
  rigPitch : Option ℚ
  startAngle : Option ℚ
  fov : Option ℚ
deriving Repr

/-- Spread-merge of a partial configuration into the current one. -/
def mergeCustomConfig (c : CustomConfig) (u : CustomConfigUpdate) : CustomConfig :=
  { frameCount := u.frameCount.getD c.frameCount
    rigPitch := u.rigPitch.getD c.rigPitch
    startAngle := u.startAngle.getD c.startAngle
    fov := u.fov.getD c.fov }

/-- setCustomConfig of useEditor360: merges the partial configuration and, in
custom mode, immediately regenerates the whole view list from it. No
validation of any field is performed. -/
def setCustomConfig (u : CustomConfigUpdate) (st : Editor360State) : Editor360State :=
  let newConfig := mergeCustomConfig st.customConfig u
  let newFrameViews :=
    if st.editorMode = EditorMode.custom then createCustomFrameViews newConfig
    else st.frameViews
  { st with
    customConfig := newConfig
    frameViews := newFrameViews
    activeFrameViewId :=
      match newFrameViews.head? with
      | some v => some v.id
      | none => st.activeFrameViewId }

/-- Playback seek of the 360 editor, identical clamp to the planar one. -/
def seek360 (time : ℚ) (st : Editor360State) : Editor360State :=
  { st with currentTime := max 0 (min time st.videoDuration) }

/-- addRange of the 360 editor: appends the min/max-normalised range to the
view with the matching id. -/
def addRange360 (viewId : String) (start end_ : ℚ) (action : Option RangeAction)
    (newId : String) (st : Editor360State) : Editor360State :=
  let newRange : TimelineRange :=
    { id := newId, start := min start end_, end_ := max start end_,
      action := action, maskPrompt := none }
  { st with frameViews := st.frameViews.map fun v =>
      if v.id = viewId then { v with ranges := v.ranges ++ [newRange] } else v }

/-- updateRange of the 360 editor: maps the partial update over the matching
range of the matching view. -/
def updateRange360 (viewId rangeId : String) (u : RangeUpdate) (st : Editor360State) :
    Editor360State :=
  { st with frameViews := st.frameViews.map fun v =>
      if v.id = viewId then
        { v with ranges := v.ranges.map fun r =>
            if r.id = rangeId then applyRangeUpdate r u else r }
      else v }

/-- Detection confidence levels. -/
inductive Confidence where
  | high | medium | low
deriving DecidableEq, Repr

/-- Result record of the 360 detector. -/
structure Detection360Result where
  is360 : Bool
  confidence : Confidence
  reason : String
deriving DecidableEq, Repr

/-- Canonical 360 video widths checked by the detector. -/
def common360Widths : List ℚ := [7680, 5760, 4096, 3840, 2880, 2048, 1920]

/-- Reason string of the first detector branch. -/
def reasonHighPreset : String := "2:1 aspect ratio with common 360 resolution"

/-- Reason string of the second detector branch. -/
def reasonMedium : String := "2:1 aspect ratio detected"

/-- Reason string of the third detector branch. -/
def reasonLow : String := "Near 2:1 aspect ratio"

/-- Reason string of the negative detector branch. -/
def reasonNot360 : String := "Non-equirectangular aspect ratio"

/-- detect360Video of lib/video360.ts, a pure function of the frame
dimensions: an ordered first-match chain over the aspect ratio and the
canonical resolution presets. -/
def detect360Video (width height : ℚ) : Detection360Result :=
  let aspectRatio := width / height
  let is2to1 := decide (|aspectRatio - 2| < 1/20)
  let isCommon360Resolution := common360Widths.any fun w =>
    decide (|width - w| < 100) && decide (|height - w / 2| < 50)
  if is2to1 && isCommon360Resolution then
    { is360 := true, confidence := Confidence.high, reason := reasonHighPreset }
  else if is2to1 then
    { is360 := true, confidence := Confidence.medium, reason := reasonMedium }
  else if decide ((19/10 : ℚ) ≤ aspectRatio) && decide (aspectRatio ≤ 21/10) then
    { is360 := true, confidence := Confidence.low, reason := reasonLow }
  else
    { is360 := false, confidence := Confidence.high, reason := reasonNot360 }

/-- Integer luma of one RGBA pixel: the source computes
0.299 R + 0.587 G + 0.114 B in floating point and stores it into a
Uint8Array, which truncates; modelled as exact rational arithmetic followed
by the floor that natural division performs. For byte inputs the value fits
in a byte, so no wrap-around occurs. -/
def luma (r g b : ℕ) : ℕ :=
  (299 * r + 587 * g + 114 * b) / 1000

/-- The sharpness scorer computeLaplacianVariance (identical in both hooks),
over an RGBA byte buffer of the given dimensions, indexed as
data (4 * (y * width + x) + channel). The 4-neighbour discrete Laplacian is
taken over the interior pixels (a one-pixel border is excluded); the score
is the population variance of the Laplacian over those pixels. The source
performs no dimension check: when the interior is empty the final JS
division is 0 / 0 = NaN, modelled here as none. -/
def computeLaplacianVariance (data : ℕ → ℕ) (width height : ℕ) : Option ℚ :=
  let gray : ℕ → ℤ := fun p => (luma (data (4 * p)) (data (4 * p + 1)) (data (4 * p + 2)) : ℤ)
  let interior : List ℕ :=
    (List.range (height - 2)).flatMap fun y =>
      (List.range (width - 2)).map fun x => (y + 1) * width + (x + 1)
  let lap : ℕ → ℤ := fun i =>
    gray (i - width) + gray (i + width) + gray (i - 1) + gray (i + 1) - 4 * gray i
  let count := interior.length
  let sum : ℤ := (interior.map lap).sum
  if count = 0 then none
  else
    let mean : ℚ := (sum : ℚ) / (count : ℚ)
    let varianceSum : ℚ := (interior.map fun i => ((lap i : ℚ) - mean) ^ 2).sum
    some (varianceSum / (count : ℚ))

/-- The borrowed video decode handle: its duration and current playback
position, as read and written through the HTMLVideoElement. -/
structure VideoState where
  duration : ℚ
  position : ℚ
deriving DecidableEq, Repr

/-- JS Math.round: rounds half toward positive infinity. -/
def jsRound (q : ℚ) : ℤ :=
  ⌊q + 1/2⌋

/-- Mutable state threaded through the planar analysis loop: the accumulated
samples, the last reported progress and the video position. -/
structure LoopState where
  results : List FrameData
  progress : ℤ
  position : ℚ
deriving DecidableEq, Repr

/-- The frame loop of runAnalysis over the listed sample indices. Each index
is mapped to the time index * (1 / fps); the loop breaks when the time
exceeds the duration; otherwise the video is sought to that time. The
outcome oracle models the seek-decode-score sequence at that index: some
variance on success, none when the decoder fails, which aborts the run with
the state accumulated so far (the catch block only logs). On success the
sample is appended and progress is set to
round((index + 1) / totalFrames * 100). -/
def analysisLoop (duration interval : ℚ) (totalFrames : ℕ) (outcome : ℕ → Option ℚ) :
    List ℕ → LoopState → LoopState
  | [], s => s
  | i :: rest, s =>
    let time := (i : ℚ) * interval
    if duration < time then s
    else
      let s1 : LoopState := { s with position := time }
      match outcome i with
      | none => s1
      | some variance =>
        analysisLoop duration interval totalFrames outcome rest
          { results := s1.results ++ [{ time := time, variance := variance }]
            progress := jsRound (((i : ℚ) + 1) / (totalFrames : ℚ) * 100)
            position := s1.position }

/-- runAnalysis of the planar editor hook: clears the frame data and progress,
records the playback position, computes totalFrames = floor(duration * fps)
and walks the indices 0..totalFrames. Whether the loop completes or a
decode error aborts it, the guaranteed-cleanup block clears the processing
flag and restores the recorded playback position; the frame data and
progress fields are left exactly as the loop produced them. -/
def runAnalysis (outcome : ℕ → Option ℚ) (video : VideoState) (st : EditorState) :
    EditorState × VideoState :=
  let duration := video.duration
  let interval := 1 / st.fps
  let totalFrames := (⌊duration * st.fps⌋).toNat
  let originalTime := video.position
  let s := analysisLoop duration interval totalFrames outcome
    (List.range (totalFrames + 1)) { results := [], progress := 0, position := originalTime }
  ({ st with isProcessing := false, frameData := s.results, progress := s.progress },
   { video with position := originalTime })

/-- Appends one sample to the view with the matching id, the per-view state
update performed inside the multi-view loop. -/
def appendSampleToViews (views : List FrameView) (id : String) (s : FrameData) :
    List FrameView :=
  views.map fun v => if v.id = id then { v with frameData := v.frameData ++ [s] } else v

/-- Mutable state threaded through the multi-view analysis loop. -/
structure MultiState where
  views : List FrameView
  opCount : ℕ
  progress : ℤ
  position : ℚ
deriving DecidableEq, Repr

/-- The frame loop of runMultiViewAnalysis. The iterated view list is the one
captured by the closure; for each sampled time every iterated view gets the
score of its extraction appended to the state view with the same id, and
the operation counter drives the progress report. The outcome oracle
models the per-frame seek-decode sequence; a failure aborts the run with
the per-view data accumulated so far. -/
def multiLoop (duration interval : ℚ) (totalOperations : ℕ) (iterViews : List FrameView)
    (score : FrameView → ℕ → ℚ) (outcome : ℕ → Option Unit) :
    List ℕ → MultiState → MultiState
  | [], s => s
  | i :: rest, s =>
    let time := (i : ℚ) * interval
    if duration < time then s
    else
      let s1 : MultiState := { s with position := time }
      match outcome i with
      | none => s1
      | some _ =>
        let stepped := iterViews.foldl
          (fun (t : List FrameView × ℕ) v =>
            (appendSampleToViews t.1 v.id { time := time, variance := score v i }, t.2 + 1))
          (s1.views, s1.opCount)
        multiLoop duration interval totalOperations iterViews score outcome rest
          { views := stepped.1
            opCount := stepped.2
            progress := jsRound ((stepped.2 : ℚ) / (totalOperations : ℚ) * 100)
            position := s1.position }

/-- runMultiViewAnalysis of the 360 editor hook: resets the frame data of all
views, computes totalFrames = floor(duration * fps) and
totalOperations = totalFrames * number of views, then walks the indices
0..totalFrames, scoring every view at every sampled time. The score oracle
models the projection (cubemap face or perspective extraction at the fixed
analysis size) composed with the sharpness scorer for the given view; it
depends only on the iterated view and the frame index. The
guaranteed-cleanup block clears the processing flag and restores the
recorded playback position. -/
def runMultiViewAnalysis (score : FrameView → ℕ → ℚ) (outcome : ℕ → Option Unit)
    (video : VideoState) (st : Editor360State) : Editor360State × VideoState :=
  let resetViews := st.frameViews.map fun v => { v with frameData := ([] : List FrameData) }
  let duration := video.duration
  let interval := 1 / st.fps
  let totalFrames := (⌊duration * st.fps⌋).toNat
  let totalOperations := totalFrames * st.frameViews.length
  let originalTime := video.position
  let s := multiLoop duration interval totalOperations st.frameViews score outcome
    (List.range (totalFrames + 1))
    { views := resetViews, opCount := 0, progress := 0, position := originalTime }
  ({ st with isProcessing := false, frameViews := s.views, progress := s.progress },
   { video with position := originalTime })

/-! Concrete fixtures used as inputs of witnesses and counterexamples. -/

/-- The frame data of the selection-model worked example: variances
100, 400, 250, 500 at times 0, 1, 2, 3. -/
def exampleFrameData : List FrameData :=
  [{ time := 0, variance := 100 }, { time := 1, variance := 400 },
   { time := 2, variance := 250 }, { time := 3, variance := 500 }]

/-- One half, written as a normalised fraction literal so that kernel
evaluation of comparisons against it works. -/
def ratHalf : ℚ := ⟨1, 2, by decide, by simp⟩

/-- Three halves, written as a normalised fraction literal. -/
def ratThreeHalves : ℚ := ⟨3, 2, by decide, by norm_num [Nat.Coprime]⟩

/-- The exclude range 0.5 to 1.5 of the selection-model worked example. -/
def exampleExcludeRange : TimelineRange :=
  { id := "range_1", start := ratHalf, end_ := ratThreeHalves,
    action := some RangeAction.exclude, maskPrompt := none }

/-- A 360 view whose data maximum (100) lies below its configured
threshold (300). -/
def cexView360 : FrameView :=
  { id := "custom_0", name := "View 1", face := none, yaw := 0, pitch := 0, fov := 90,
    frameData := [{ time := 0, variance := 100 }], threshold := 300, ranges := [] }

/-- A concrete 360 editor state used as witness input. -/
def demoEditor360State : Editor360State :=
  { videoDuration := 10, currentTime := 0, isPlaying := false,
    editorMode := EditorMode.skybox,
    frameViews := [cexView360], activeFrameViewId := some "custom_0",
    customConfig := DEFAULT_CUSTOM_CONFIG, isProcessing := false, progress := 0,
    fps := 6 }

/-- The ranges of a state satisfy the data-model ordering invariant when every
stored range has start at most end. -/
def rangesWF (l : List TimelineRange) : Prop :=
  ∀ r ∈ l, r.start ≤ r.end_

/-- A partial range update that moves only the start, past the end of the
range it will be applied to. -/
def cexRangeUpdate : RangeUpdate :=
  { start := some 5, end_ := none, action := none, maskPrompt := none }

/-! Theorems. Helper lemmas come first; each claim is settled by a single
named theorem below. -/

/-- The fold underlying the maximum-variance computation never drops below
its initial accumulator. -/
theorem foldlMax_init_le (l : List FrameData) :
    ∀ a : ℚ, a ≤ l.foldl (fun acc f => max acc f.variance) a := by
  induction l with
  | nil => intro a; exact le_refl a
  | cons g t ih =>
    intro a
    exact le_trans (le_max_left a g.variance) (ih (max a g.variance))

/-- Every listed variance is bounded by the maximum-variance fold. -/
theorem foldlMax_le_of_mem (l : List FrameData) (f : FrameData) (hf : f ∈ l) :
    f.variance ≤ foldlMax l := by
  unfold foldlMax
  generalize (0 : ℚ) = a
  induction l generalizing a with
  | nil => cases hf
  | cons g t ih =>
    rcases List.mem_cons.mp hf with h | h
    · subst h
      exact le_trans (le_trans (le_max_right a f.variance)
        (foldlMax_init_le t (max a f.variance))) (le_refl _)
    · exact ih h (max a g.variance)

/-- The maximum-variance fold is either its initial zero or attained by a
listed frame. -/
theorem foldlMax_zero_or_mem (l : List FrameData) :
    foldlMax l = 0 ∨ ∃ f ∈ l, foldlMax l = f.variance := by
  have main : ∀ (t : List FrameData) (a : ℚ),
      t.foldl (fun acc f => max acc f.variance) a = a
        ∨ ∃ f ∈ t, t.foldl (fun acc f => max acc f.variance) a = f.variance := by
    intro t
    induction t with
    | nil => intro a; exact Or.inl rfl
    | cons g t ih =>
      intro a
      rcases ih (max a g.variance) with h | ⟨f, hf, hfe⟩
      · rcases max_choice a g.variance with hm | hm
        · exact Or.inl (by rw [List.foldl_cons, h, hm])
        · exact Or.inr ⟨g, List.mem_cons_self g t, by rw [List.foldl_cons, h, hm]⟩
      · exact Or.inr ⟨f, List.mem_cons_of_mem g hf, by rw [List.foldl_cons, hfe]⟩
  exact main l 0

/-- C10: in both editors, seek(t) clamps the playback cursor to
max(0, min(t, videoDuration)), so for any requested time, including negative
and past-end values, the resulting cursor stays within [0, duration]
whenever the loaded duration is nonnegative. -/
theorem seek_clamps (t : ℚ) (st : EditorState) (st360 : Editor360State)
    (h : 0 ≤ st.videoDuration) (h360 : 0 ≤ st360.videoDuration) :
    ((seek t st).currentTime = max 0 (min t st.videoDuration)
      ∧ 0 ≤ (seek t st).currentTime
      ∧ (seek t st).currentTime ≤ st.videoDuration)
    ∧ ((seek360 t st360).currentTime = max 0 (min t st360.videoDuration)
      ∧ 0 ≤ (seek360 t st360).currentTime
      ∧ (seek360 t st360).currentTime ≤ st360.videoDuration) := by
  refine ⟨⟨rfl, le_max_left _ _, ?_⟩, ⟨rfl, le_max_left _ _, ?_⟩⟩
  · exact max_le h (min_le_right _ _)
  · exact max_le h360 (min_le_right _ _)

/-- Witness for C10 at concrete inputs: a seek to -5 lands on 0 and stays
within bounds. -/
theorem seek_clamps_witness :
    (seek (-5) initialState).currentTime = 0
    ∧ 0 ≤ (seek360 (-5) demoEditor360State).currentTime
    ∧ (seek360 (-5) demoEditor360State).currentTime ≤ demoEditor360State.videoDuration := by
  have h := seek_clamps (-5) initialState demoEditor360State (by decide) (by decide)
  exact ⟨by decide, h.2.2.1, h.2.2.2⟩

/-- C9 counterexample: starting from the initial state, addRange stores an
ordered range, but a subsequent updateRange that moves only the start past
the end leaves a stored range with start greater than end, so the ordering
invariant is not preserved by every range operation. -/
theorem updateRange_order_counterexample :
    rangesWF ((addRange 0 1 none "a" initialState).ranges)
    ∧ ¬ rangesWF ((updateRange "a" cexRangeUpdate
        (addRange 0 1 none "a" initialState)).ranges) := by
  constructor
  · intro r hr
    simp only [addRange, initialState, List.nil_append, List.mem_singleton] at hr
    subst hr
    norm_num
  · intro hwf
    have h := hwf { id := "a", start := 5, end_ := 1, action := none, maskPrompt := none }
      (by decide)
    norm_num at h

/-- C9 amended: addRange (with its two time arguments in either order) always
stores a range with start at most end and preserves the invariant in both
editors; updateRange copies the supplied start/end values verbatim without
renormalising, so it preserves the invariant exactly when every updated
range still satisfies start at most end after the merge — a start-only or
end-only update can break it. -/
theorem range_order_invariant :
    (∀ (s e : ℚ) (a : Option RangeAction) (newId : String) (st : EditorState),
      rangesWF st.ranges → rangesWF ((addRange s e a newId st).ranges))
    ∧ (∀ (id : String) (u : RangeUpdate) (st : EditorState),
      rangesWF st.ranges →
      (∀ r ∈ st.ranges, (applyRangeUpdate r u).start ≤ (applyRangeUpdate r u).end_) →
      rangesWF ((updateRange id u st).ranges))
    ∧ (∀ (viewId : String) (s e : ℚ) (a : Option RangeAction) (newId : String)
        (st : Editor360State),
      (∀ v ∈ st.frameViews, rangesWF v.ranges) →
      ∀ v ∈ (addRange360 viewId s e a newId st).frameViews, rangesWF v.ranges)
    ∧ (∀ (viewId rangeId : String) (u : RangeUpdate) (st : Editor360State),
      (∀ v ∈ st.frameViews, rangesWF v.ranges) →
      (∀ v ∈ st.frameViews, ∀ r ∈ v.ranges,
        (applyRangeUpdate r u).start ≤ (applyRangeUpdate r u).end_) →
      ∀ v ∈ (updateRange360 viewId rangeId u st).frameViews, rangesWF v.ranges) := by
  refine ⟨?_, ?_, ?_, ?_⟩
  · intro s e a newId st hwf r hr
    simp only [addRange, List.mem_append, List.mem_singleton] at hr
    rcases hr with hr | hr
    · exact hwf r hr
    · subst hr
      exact min_le_max
  · intro id u st hwf hupd r hr
    simp only [updateRange, List.mem_map] at hr
    obtain ⟨r0, hr0, heq⟩ := hr
    by_cases hid : r0.id = id
    · rw [if_pos hid] at heq
      subst heq
      exact hupd r0 hr0
    · rw [if_neg hid] at heq
      subst heq
      exact hwf r0 hr0
  · intro viewId s e a newId st hwf v hv
    simp only [addRange360, List.mem_map] at hv
    obtain ⟨v0, hv0, heq⟩ := hv
    by_cases hid : v0.id = viewId
    · rw [if_pos hid] at heq
      subst heq
      intro r hr
      simp only [List.mem_append, List.mem_singleton] at hr
      rcases hr with hr | hr
      · exact hwf v0 hv0 r hr
      · subst hr
        exact min_le_max
    · rw [if_neg hid] at heq
      subst heq
      exact hwf v0 hv0
  · intro viewId rangeId u st hwf hupd v hv
    simp only [updateRange360, List.mem_map] at hv
    obtain ⟨v0, hv0, heq⟩ := hv
    by_cases hid : v0.id = viewId
    · rw [if_pos hid] at heq
      subst heq
      intro r hr
      simp only [List.mem_map] at hr
      obtain ⟨r0, hr0, heq⟩ := hr
      by_cases hrid : r0.id = rangeId
      · rw [if_pos hrid] at heq
        subst heq
        exact hupd v0 hv0 r0 hr0
      · rw [if_neg hrid] at heq
        subst heq
        exact hwf v0 hv0 r0 hr0
    · rw [if_neg hid] at heq
      subst heq
      exact hwf v0 hv0

/-- Witness for the amended C9 theorem at concrete inputs: addRange called
with its arguments reversed still stores an ordered range, and an
updateRange whose merged values stay ordered preserves the invariant. -/
theorem range_order_invariant_witness :
    rangesWF ((addRange 3 1 none "b" initialState).ranges)
    ∧ rangesWF ((updateRange "a"
        { start := some 0, end_ := some 2, action := none, maskPrompt := none }
        (addRange 0 1 none "a" initialState)).ranges) := by
  constructor
  · exact range_order_invariant.1 3 1 none "b" initialState (by intro r hr; simp [initialState] at hr)
  · refine range_order_invariant.2.1 "a" _ _ ?_ ?_
    · intro r hr
      simp only [addRange, initialState, List.nil_append, List.mem_singleton] at hr
      subst hr
      norm_num
    · intro r hr
      simp only [addRange, initialState, List.nil_append, List.mem_singleton] at hr
      subst hr
      norm_num [applyRangeUpdate]

/-- C1: a frame is eligible for export exactly when its variance reaches the
threshold in effect and its time is covered by no exclude range,
membership being inclusive at both endpoints; on the worked example
(variances 100, 400, 250, 500 at times 0..3, threshold 300, exclude range
0.5 to 1.5) the eligible set is exactly the sample at time 3 with
variance 500. -/
theorem sharpFrames_eligibility :
    (∀ (fd : List FrameData) (ranges : List TimelineRange) (threshold : ℚ) (f : FrameData),
      f ∈ sharpFrames fd threshold ranges ↔
        f ∈ fd ∧ threshold ≤ f.variance ∧
          ∀ r ∈ ranges, r.action = some RangeAction.exclude →
            ¬(r.start ≤ f.time ∧ f.time ≤ r.end_))
    ∧ sharpFrames exampleFrameData (effectiveThreshold 300 exampleFrameData)
        [exampleExcludeRange] = [{ time := 3, variance := 500 }] := by
  constructor
  · intro fd ranges threshold f
    simp only [sharpFrames, List.mem_filter, Bool.and_eq_true, decide_eq_true_eq,
      Bool.not_eq_true', isTimeExcluded, List.any_eq_false, List.mem_filter,
      Bool.and_eq_true, decide_eq_true_eq, and_assoc]
    constructor
    · rintro ⟨hmem, hthr, hex⟩
      refine ⟨hmem, hthr, ?_⟩
      intro r hr hact hcov
      exact hex r ⟨hr, hact⟩ ⟨hcov.1, hcov.2⟩
    · rintro ⟨hmem, hthr, hex⟩
      refine ⟨hmem, hthr, ?_⟩
      rintro r ⟨hr, hact⟩ ⟨h1, h2⟩
      exact hex r hr hact ⟨h1, h2⟩
  · decide

/-- C2 counterexample: the 360 editor export filters with the configured
view threshold directly, not with the clamped effective threshold: on a
view whose maximum observed variance (100) lies below its threshold (300)
the 360 export selects nothing, while the clamped threshold of the claim
would select the frame of maximal variance. -/
theorem effectiveThreshold_clamp_counterexample :
    sharpFrames360 cexView360 = []
    ∧ sharpFrames cexView360.frameData
        (effectiveThreshold cexView360.threshold cexView360.frameData)
        cexView360.ranges = [{ time := 0, variance := 100 }] := by
  decide

/-- C2 amended: the planar selection and export paths apply the clamped
threshold min(configured, maximum observed variance with the OR-1
fallback), so whenever some frame has positive variance and no exclude
range is present the planar eligible set is nonempty; the 360 export
applies the configured threshold unclamped, so a threshold above every
observed variance yields an empty eligible set there. -/
theorem effectiveThreshold_selection_amended :
    (∀ st : EditorState,
      (∃ f ∈ st.frameData, 0 < f.variance) →
      (∀ r ∈ st.ranges, r.action ≠ some RangeAction.exclude) →
      sharpFramesPlanar st ≠ [])
    ∧ (∀ v : FrameView,
      (∀ f ∈ v.frameData, f.variance < v.threshold) →
      sharpFrames360 v = []) := by
  constructor
  · intro st hpos hnoex
    obtain ⟨f0, hf0, hf0pos⟩ := hpos
    have hmaxpos : 0 < foldlMax st.frameData :=
      lt_of_lt_of_le hf0pos (foldlMax_le_of_mem st.frameData f0 hf0)
    obtain hmax | ⟨fm, hfm, hfmeq⟩ := foldlMax_zero_or_mem st.frameData
    · exact absurd hmax (ne_of_gt hmaxpos)
    · intro hempty
      have hmem : fm ∈ sharpFramesPlanar st := by
        have hthr : effectiveThreshold st.threshold st.frameData ≤ fm.variance := by
          calc effectiveThreshold st.threshold st.frameData
              ≤ maxVariance st.frameData := min_le_right _ _
          _ = foldlMax st.frameData := by
              unfold maxVariance
              rw [if_neg (ne_of_gt hmaxpos)]
          _ = fm.variance := hfmeq
        have hnotex : isTimeExcluded st.ranges fm.time = false := by
          simp only [isTimeExcluded, List.any_eq_false, List.mem_filter,
            decide_eq_true_eq]
          rintro r ⟨hr, hact⟩
          exact absurd hact (hnoex r hr)
        simp only [sharpFramesPlanar, sharpFrames, List.mem_filter, Bool.and_eq_true,
          decide_eq_true_eq, Bool.not_eq_true']
        exact ⟨hfm, hthr, hnotex⟩
      rw [hempty] at hmem
      exact absurd hmem (List.not_mem_nil fm)
  · intro v hlt
    simp only [sharpFrames360, sharpFrames]
    rw [List.filter_eq_nil_iff]
    intro f hf
    simp only [Bool.and_eq_true, decide_eq_true_eq, Bool.not_eq_true', not_and]
    intro hthr
    exact absurd hthr (not_le.mpr (hlt f hf))

/-- Witness for the amended C2 theorem at concrete inputs: the planar path
with one positive-variance frame and no ranges selects something, and the
360 path with its threshold above all variances selects nothing. -/
theorem effectiveThreshold_selection_witness :
    sharpFramesPlanar { initialState with frameData := [{ time := 0, variance := 100 }] } ≠ []
    ∧ sharpFrames360 cexView360 = [] := by
  constructor
  · exact effectiveThreshold_selection_amended.1 _ (by decide) (by decide)
  · exact effectiveThreshold_selection_amended.2 cexView360 (by decide)

/-- Length of the regenerated custom view list: one view per frame count
(clamped at zero from below by the loop bound). -/
theorem length_createCustomFrameViews (c : CustomConfig) :
    (createCustomFrameViews c).length = c.frameCount.toNat := by
  unfold createCustomFrameViews
  rw [List.length_map, List.enum_length]
  simp only [generateCustomViews]
  rw [List.length_map, List.length_range]

/-- A concrete custom-mode 360 editor state with the default four views. -/
def cexCustomState : Editor360State :=
  { videoDuration := 10, currentTime := 0, isPlaying := false,
    editorMode := EditorMode.custom,
    frameViews := createCustomFrameViews DEFAULT_CUSTOM_CONFIG,
    activeFrameViewId := some "custom_0",
    customConfig := DEFAULT_CUSTOM_CONFIG, isProcessing := false, progress := 0,
    fps := 6 }

/-- A partial configuration carrying a frame count far outside 1..12. -/
def frameCount20 : CustomConfigUpdate :=
  { frameCount := some 20, rigPitch := none, startAngle := none, fov := none }

/-- C6 counterexample: applying a configuration with frameCount = 20 (outside
1..12) through setCustomConfig in custom mode is not rejected: the
configuration is stored and the views are regenerated as 20 fresh views,
so the previously existing four views do not remain unchanged. -/
theorem setCustomConfig_counterexample :
    cexCustomState.frameViews.length = 4
    ∧ (setCustomConfig frameCount20 cexCustomState).frameViews.length = 20
    ∧ (setCustomConfig frameCount20 cexCustomState).frameViews ≠ cexCustomState.frameViews
    ∧ (setCustomConfig frameCount20 cexCustomState).customConfig.frameCount = 20 := by
  have h4 : cexCustomState.frameViews.length = 4 := by
    show (createCustomFrameViews DEFAULT_CUSTOM_CONFIG).length = 4
    rw [length_createCustomFrameViews]
    rfl
  have hmode : cexCustomState.editorMode = EditorMode.custom := rfl
  have h20 : (setCustomConfig frameCount20 cexCustomState).frameViews.length = 20 := by
    simp only [setCustomConfig, hmode, if_pos]
    rw [length_createCustomFrameViews]
    rfl
  refine ⟨h4, h20, ?_, rfl⟩
  intro h
  have := congrArg List.length h
  rw [h20, h4] at this
  exact absurd this (by decide)

/-- C6 amended: setCustomConfig performs no validation of frameCount (the
1..12 bound exists only as a slider constraint in the options panel): in
custom mode any merged configuration, in range or not, immediately
regenerates the whole view list with frameCount fresh views (empty
analysis data and ranges), replacing the previous views, while in skybox
mode the views are left untouched. -/
theorem setCustomConfig_amended :
    (∀ (u : CustomConfigUpdate) (st : Editor360State),
      st.editorMode = EditorMode.custom →
      (setCustomConfig u st).frameViews =
          createCustomFrameViews (mergeCustomConfig st.customConfig u)
        ∧ (setCustomConfig u st).frameViews.length =
            (mergeCustomConfig st.customConfig u).frameCount.toNat
        ∧ ∀ v ∈ (setCustomConfig u st).frameViews, v.frameData = [] ∧ v.ranges = [])
    ∧ (∀ (u : CustomConfigUpdate) (st : Editor360State),
      st.editorMode = EditorMode.skybox →
      (setCustomConfig u st).frameViews = st.frameViews) := by
  constructor
  · intro u st h
    have hviews : (setCustomConfig u st).frameViews =
        createCustomFrameViews (mergeCustomConfig st.customConfig u) := by
      simp only [setCustomConfig, h, if_pos]
    refine ⟨hviews, ?_, ?_⟩
    · rw [hviews, length_createCustomFrameViews]
    · intro v hv
      rw [hviews] at hv
      simp only [createCustomFrameViews, List.mem_map] at hv
      obtain ⟨p, hp, heq⟩ := hv
      subst heq
      exact ⟨rfl, rfl⟩
  · intro u st h
    have : st.editorMode ≠ EditorMode.custom := by
      rw [h]
      decide
    simp only [setCustomConfig, if_neg this]

/-- Witness for the amended C6 theorem at concrete inputs: in custom mode the
out-of-range frame count 20 regenerates 20 fresh views, and in skybox mode
the same update leaves the views untouched. -/
theorem setCustomConfig_amended_witness :
    (setCustomConfig frameCount20 cexCustomState).frameViews.length = 20
    ∧ (∀ v ∈ (setCustomConfig frameCount20 cexCustomState).frameViews,
        v.frameData = [] ∧ v.ranges = [])
    ∧ (setCustomConfig frameCount20 demoEditor360State).frameViews =
        demoEditor360State.frameViews := by
  have h1 := setCustomConfig_amended.1 frameCount20 cexCustomState rfl
  have h2 := setCustomConfig_amended.2 frameCount20 demoEditor360State rfl
  exact ⟨by rw [h1.2.1]; rfl, h1.2.2, h2⟩

/-- Branch characterisation of the 360 detector: each detection outcome holds
exactly under the corresponding first-match condition of the ordered
policy. -/
theorem detect360Video_cases (width height : ℚ) :
    (detect360Video width height =
        { is360 := true, confidence := Confidence.high, reason := reasonHighPreset }
      ↔ (|width / height - 2| < 1/20
          ∧ ∃ w ∈ common360Widths, |width - w| < 100 ∧ |height - w / 2| < 50))
    ∧ (detect360Video width height =
        { is360 := true, confidence := Confidence.medium, reason := reasonMedium }
      ↔ (|width / height - 2| < 1/20
          ∧ ¬ ∃ w ∈ common360Widths, |width - w| < 100 ∧ |height - w / 2| < 50))
    ∧ (detect360Video width height =
        { is360 := true, confidence := Confidence.low, reason := reasonLow }
      ↔ (¬ |width / height - 2| < 1/20
          ∧ (19/10 ≤ width / height ∧ width / height ≤ 21/10)))
    ∧ (detect360Video width height =
        { is360 := false, confidence := Confidence.high, reason := reasonNot360 }
      ↔ (¬ |width / height - 2| < 1/20
          ∧ ¬ (19/10 ≤ width / height ∧ width / height ≤ 21/10))) := by
  have hne : ∀ {b1 b2 : Bool} {c1 c2 : Confidence} {r1 r2 : String},
      (b1 = b2 → c1 = c2 → False) →
      ¬(({ is360 := b1, confidence := c1, reason := r1 } : Detection360Result)
        = { is360 := b2, confidence := c2, reason := r2 }) := by
    intro b1 b2 c1 c2 r1 r2 hc heq
    injection heq with e1 e2 e3
    exact hc e1 e2
  unfold detect360Video
  simp only [Bool.and_eq_true, decide_eq_true_eq, List.any_eq_true]
  split_ifs with h1 h2 h3
  · exact ⟨iff_of_true rfl h1,
      iff_of_false (hne (by intro _ h; cases h)) (fun h => h.2 h1.2),
      iff_of_false (hne (by intro _ h; cases h)) (fun h => h.1 h1.1),
      iff_of_false (hne (by intro h; cases h)) (fun h => h.1 h1.1)⟩
  · have hE : ¬ ∃ w ∈ common360Widths, |width - w| < 100 ∧ |height - w / 2| < 50 :=
      fun e => h1 ⟨h2, e⟩
    exact ⟨iff_of_false (hne (by intro _ h; cases h)) (fun h => hE h.2),
      iff_of_true rfl ⟨h2, hE⟩,
      iff_of_false (hne (by intro _ h; cases h)) (fun h => h.1 h2),
      iff_of_false (hne (by intro h; cases h)) (fun h => h.1 h2)⟩
  · have hP : ¬ |width / height - 2| < 1/20 := fun hp => h2 hp
    exact ⟨iff_of_false (hne (by intro _ h; cases h)) (fun h => hP h.1),
      iff_of_false (hne (by intro _ h; cases h)) (fun h => hP h.1),
      iff_of_true rfl ⟨hP, h3⟩,
      iff_of_false (hne (by intro h; cases h)) (fun h => h.2 h3)⟩
  · have hP : ¬ |width / height - 2| < 1/20 := fun hp => h2 hp
    exact ⟨iff_of_false (hne (by intro h; cases h)) (fun h => hP h.1),
      iff_of_false (hne (by intro h; cases h)) (fun h => hP h.1),
      iff_of_false (hne (by intro h; cases h)) (fun h => h3 h.2),
      iff_of_true rfl ⟨hP, h3⟩⟩

/-- C7: the detector classifies from width and height only, by the ordered
first-match policy (2:1 within 0.05 and near a canonical preset gives
true/high; else 2:1 within 0.05 gives true/medium; else aspect within
[1.9, 2.1] gives true/low; else false/high), and on the three reference
inputs it returns true/high for 3840x1920, false/high for 1920x1080 and
true/medium for 3000x1500. -/
theorem detect360Video_policy :
    (∀ width height : ℚ,
      (detect360Video width height =
          { is360 := true, confidence := Confidence.high, reason := reasonHighPreset }
        ↔ (|width / height - 2| < 1/20
            ∧ ∃ w ∈ common360Widths, |width - w| < 100 ∧ |height - w / 2| < 50))
      ∧ (detect360Video width height =
          { is360 := true, confidence := Confidence.medium, reason := reasonMedium }
        ↔ (|width / height - 2| < 1/20
            ∧ ¬ ∃ w ∈ common360Widths, |width - w| < 100 ∧ |height - w / 2| < 50))
      ∧ (detect360Video width height =
          { is360 := true, confidence := Confidence.low, reason := reasonLow }
        ↔ (¬ |width / height - 2| < 1/20
            ∧ (19/10 ≤ width / height ∧ width / height ≤ 21/10)))
      ∧ (detect360Video width height =
          { is360 := false, confidence := Confidence.high, reason := reasonNot360 }
        ↔ (¬ |width / height - 2| < 1/20
            ∧ ¬ (19/10 ≤ width / height ∧ width / height ≤ 21/10))))
    ∧ detect360Video 3840 1920 =
        { is360 := true, confidence := Confidence.high, reason := reasonHighPreset }
    ∧ detect360Video 1920 1080 =
        { is360 := false, confidence := Confidence.high, reason := reasonNot360 }
    ∧ detect360Video 3000 1500 =
        { is360 := true, confidence := Confidence.medium, reason := reasonMedium } := by
  refine ⟨detect360Video_cases, ?_, ?_, ?_⟩
  · exact (detect360Video_cases 3840 1920).1.mpr
      ⟨by norm_num, ⟨3840, by simp [common360Widths], by norm_num, by norm_num⟩⟩
  · exact (detect360Video_cases 1920 1080).2.2.2.mpr
      ⟨by norm_num [not_lt, le_abs], by norm_num⟩
  · refine (detect360Video_cases 3000 1500).2.1.mpr ⟨by norm_num, ?_⟩
    rintro ⟨w, hw, hw1, hw2⟩
    simp only [common360Widths, List.mem_cons, List.not_mem_nil, or_false] at hw
    rcases hw with h | h | h | h | h | h | h <;> subst h <;> norm_num at hw1

/-- The JS remainder with divisor 360 agrees with the canonical mathematical
residue for nonnegative dividends. -/
theorem jsRem_of_nonneg (a : ℚ) (ha : 0 ≤ a) :
    jsRem a 360 = a - 360 * ⌊a / 360⌋ := by
  unfold jsRem ratTrunc
  rw [if_pos (div_nonneg ha (by norm_num))]

/-- C8: generateCustomViews deterministically returns exactly frameCount
views, view i having yaw congruent to startAngle + i * (360 / frameCount)
reduced modulo 360 (for nonnegative start angles the JS remainder is the
mathematical residue), pitch equal to the rig pitch and the given fov; in
particular generateCustomViews(4, 0, 0, 90) yields yaws 0, 90, 180, 270
with pitch 0 and fov 90, as exact values. -/
theorem generateCustomViews_spec :
    (∀ (frameCount : ℤ) (rigPitch startAngle fov : ℚ),
      1 ≤ frameCount → 0 ≤ startAngle →
      (generateCustomViews frameCount rigPitch startAngle fov).length = frameCount.toNat
      ∧ generateCustomViews frameCount rigPitch startAngle fov =
        (List.range frameCount.toNat).map fun i =>
          { name := "View " ++ toString (i + 1)
            yaw := (startAngle + (i : ℚ) * (360 / (frameCount : ℚ)))
              - 360 * ⌊(startAngle + (i : ℚ) * (360 / (frameCount : ℚ))) / 360⌋
            pitch := rigPitch
            fov := fov })
    ∧ generateCustomViews 4 0 0 90 =
        [{ name := "View 1", yaw := 0, pitch := 0, fov := 90 },
         { name := "View 2", yaw := 90, pitch := 0, fov := 90 },
         { name := "View 3", yaw := 180, pitch := 0, fov := 90 },
         { name := "View 4", yaw := 270, pitch := 0, fov := 90 }] := by
  constructor
  · intro fc p s f hfc hs
    constructor
    · simp [generateCustomViews]
    · simp only [generateCustomViews]
      refine List.map_congr_left ?_
      intro i hi
      have hstep : (0 : ℚ) ≤ 360 / (fc : ℚ) := by
        have : (0 : ℚ) < (fc : ℚ) := by exact_mod_cast hfc
        positivity
      have ha : 0 ≤ s + (i : ℚ) * (360 / (fc : ℚ)) :=
        add_nonneg hs (mul_nonneg (by positivity) hstep)
      rw [jsRem_of_nonneg _ ha]
  · have h4 : List.range (Int.toNat 4) = [0, 1, 2, 3] := rfl
    simp only [generateCustomViews, h4, List.map_cons, List.map_nil]
    norm_num [jsRem, ratTrunc, GeneratedView.mk.injEq]
    exact ⟨rfl, rfl, rfl, rfl⟩

/-- Witness for C8 at concrete inputs: four views are generated for the
default configuration and the second one points at yaw 90. -/
theorem generateCustomViews_spec_witness :
    (generateCustomViews 4 0 0 90).length = 4
    ∧ (generateCustomViews 4 0 0 90).map GeneratedView.yaw = [0, 90, 180, 270] := by
  have h := generateCustomViews_spec.1 4 0 0 90 (by decide) (by decide)
  refine ⟨by rw [h.1]; rfl, ?_⟩
  rw [generateCustomViews_spec.2]
  rfl

/-- The interior pixel index list of the scorer has (height - 2) * (width - 2)
entries (truncated subtraction: an empty interior for any dimension
below 3). -/
theorem interiorLength (width height : ℕ) :
    ((List.range (height - 2)).flatMap fun y =>
      (List.range (width - 2)).map fun x => (y + 1) * width + (x + 1)).length
    = (height - 2) * (width - 2) := by
  rw [List.length_flatMap]
  simp only [Function.comp_def, List.length_map, List.length_range]
  rw [List.map_const', List.sum_replicate, smul_eq_mul, List.length_range]

/-- C4 counterexample: the scorer performs no dimension validation: on a 2x2
(or 10x1) buffer the interior is empty and the function silently returns
the NaN of the JS division 0 / 0 (modelled as none) instead of signalling
an error. -/
theorem computeLaplacianVariance_nan_counterexample :
    computeLaplacianVariance (fun _ => 0) 2 2 = none
    ∧ computeLaplacianVariance (fun _ => 0) 10 1 = none :=
  ⟨rfl, rfl⟩

/-- C4 amended: for any buffer with width below 3 or height below 3 the
scorer silently evaluates 0 / 0 and returns NaN (modelled as none), with
no error signalled; for dimensions at least 3x3 it returns a defined score
that is nonnegative. -/
theorem computeLaplacianVariance_amended :
    ∀ (data : ℕ → ℕ) (width height : ℕ),
      ((width < 3 ∨ height < 3) → computeLaplacianVariance data width height = none)
      ∧ (3 ≤ width → 3 ≤ height →
          ∃ q, computeLaplacianVariance data width height = some q ∧ 0 ≤ q) := by
  intro data w h
  constructor
  · intro hlt
    have hcount : ((List.range (h - 2)).flatMap fun y =>
        (List.range (w - 2)).map fun x => (y + 1) * w + (x + 1)).length = 0 := by
      rw [interiorLength]
      rcases hlt with hw | hh
      · have hwz : w - 2 = 0 := by omega
        rw [hwz, Nat.mul_zero]
      · have hhz : h - 2 = 0 := by omega
        rw [hhz, Nat.zero_mul]
    simp only [computeLaplacianVariance]
    rw [if_pos hcount]
  · intro hw hh
    have hpos : 0 < ((List.range (h - 2)).flatMap fun y =>
        (List.range (w - 2)).map fun x => (y + 1) * w + (x + 1)).length := by
      rw [interiorLength]
      exact Nat.mul_pos (by omega) (by omega)
    simp only [computeLaplacianVariance]
    rw [if_neg (Nat.pos_iff_ne_zero.mp hpos)]
    refine ⟨_, rfl, ?_⟩
    apply div_nonneg
    · apply List.sum_nonneg
      intro x hx
      simp only [List.mem_map] at hx
      obtain ⟨i, _, rfl⟩ := hx
      exact sq_nonneg _
    · exact Nat.cast_nonneg _

/-- Witness for the amended C4 theorem at concrete inputs: a 2x3 buffer gives
the NaN result and a 3x3 buffer gives a defined nonnegative score. -/
theorem computeLaplacianVariance_amended_witness :
    computeLaplacianVariance (fun _ => 17) 2 3 = none
    ∧ ∃ q, computeLaplacianVariance (fun _ => 17) 3 3 = some q ∧ 0 ≤ q :=
  ⟨(computeLaplacianVariance_amended (fun _ => 17) 2 3).1 (Or.inl (by decide)),
    (computeLaplacianVariance_amended (fun _ => 17) 3 3).2 (by decide) (by decide)⟩

/-- Unrolling of the planar analysis loop over indices that all succeed: every
sample is appended in order, progress ends at the report of the last index
and the video sits at the last sampled time. -/
theorem analysisLoop_ok (duration interval : ℚ) (tf : ℕ) (outcome : ℕ → Option ℚ)
    (v : ℕ → ℚ) :
    ∀ (is : List ℕ) (s : LoopState),
      (∀ i ∈ is, (i : ℚ) * interval ≤ duration) →
      (∀ i ∈ is, outcome i = some (v i)) →
      analysisLoop duration interval tf outcome is s =
        { results := s.results ++ is.map fun i =>
            { time := (i : ℚ) * interval, variance := v i }
          progress := (is.getLast?.map fun (j : ℕ) =>
            jsRound (((j : ℚ) + 1) / (tf : ℚ) * 100)).getD s.progress
          position := (is.getLast?.map fun (j : ℕ) => (j : ℚ) * interval).getD s.position } := by
  intro is
  induction is with
  | nil =>
    intro s _ _
    simp [analysisLoop]
  | cons i rest ih =>
    intro s hts hos
    have hti : (i : ℚ) * interval ≤ duration := hts i (List.mem_cons_self i rest)
    have hoi : outcome i = some (v i) := hos i (List.mem_cons_self i rest)
    simp only [analysisLoop, hoi, if_neg (not_lt.mpr hti)]
    rw [ih _ (fun j hj => hts j (List.mem_cons_of_mem i hj))
      (fun j hj => hos j (List.mem_cons_of_mem i hj))]
    rcases rest with _ | ⟨j, t⟩
    · simp
    · have hne : (j :: t).getLast? ≠ none := by
        simp [List.getLast?_eq_none_iff]
      obtain ⟨l, hl⟩ := Option.ne_none_iff_exists'.mp hne
      simp [List.getLast?_cons_cons, hl, List.append_assoc]

/-- The analysis loop traverses an all-success prefix and continues from the
state that prefix produced. -/
theorem analysisLoop_append (duration interval : ℚ) (tf : ℕ) (outcome : ℕ → Option ℚ)
    (v : ℕ → ℚ) :
    ∀ (is1 is2 : List ℕ) (s : LoopState),
      (∀ i ∈ is1, (i : ℚ) * interval ≤ duration) →
      (∀ i ∈ is1, outcome i = some (v i)) →
      analysisLoop duration interval tf outcome (is1 ++ is2) s =
        analysisLoop duration interval tf outcome is2
          (analysisLoop duration interval tf outcome is1 s) := by
  intro is1
  induction is1 with
  | nil =>
    intro is2 s _ _
    simp [analysisLoop]
  | cons i rest ih =>
    intro is2 s hts hos
    have hti : (i : ℚ) * interval ≤ duration := hts i (List.mem_cons_self i rest)
    have hoi : outcome i = some (v i) := hos i (List.mem_cons_self i rest)
    simp only [List.cons_append, analysisLoop, hoi, if_neg (not_lt.mpr hti)]
    exact ih is2 _ (fun j hj => hts j (List.mem_cons_of_mem i hj))
      (fun j hj => hos j (List.mem_cons_of_mem i hj))

/-- Aborting run of the planar analysis loop: all indices before the failing
one succeed, the failing index is sought (position moves there) and the
loop stops, keeping the samples and the progress accumulated so far. -/
theorem analysisLoop_abort (duration interval : ℚ) (tf : ℕ) (outcome : ℕ → Option ℚ)
    (v : ℕ → ℚ) (is1 : List ℕ) (i0 : ℕ) (is2 : List ℕ) (s : LoopState)
    (hts : ∀ i ∈ is1, (i : ℚ) * interval ≤ duration)
    (hos : ∀ i ∈ is1, outcome i = some (v i))
    (ht0 : (i0 : ℚ) * interval ≤ duration)
    (ho0 : outcome i0 = none) :
    analysisLoop duration interval tf outcome (is1 ++ i0 :: is2) s =
      { results := s.results ++ is1.map fun i =>
          { time := (i : ℚ) * interval, variance := v i }
        progress := (is1.getLast?.map fun (j : ℕ) =>
          jsRound (((j : ℚ) + 1) / (tf : ℚ) * 100)).getD s.progress
        position := (i0 : ℚ) * interval } := by
  rw [analysisLoop_append duration interval tf outcome v is1 (i0 :: is2) s hts hos,
    analysisLoop_ok duration interval tf outcome v is1 s hts hos]
  simp only [analysisLoop, ho0, if_neg (not_lt.mpr ht0)]

/-- Sample times never exceed the duration: the loop index stays at most
floor(duration * fps), and dividing by the positive rate keeps the time at
most the duration. -/
theorem sampleTime_le (d fps : ℚ) (hd : 0 ≤ d) (hfps : 0 < fps) (i : ℕ)
    (hi : i ≤ (⌊d * fps⌋).toNat) : (i : ℚ) * (1 / fps) ≤ d := by
  have hfl : 0 ≤ ⌊d * fps⌋ := Int.floor_nonneg.mpr (mul_nonneg hd hfps.le)
  have h1 : (i : ℤ) ≤ ⌊d * fps⌋ := by omega
  have h2 : (i : ℚ) ≤ d * fps := by
    calc (i : ℚ) ≤ (⌊d * fps⌋ : ℚ) := by exact_mod_cast h1
    _ ≤ d * fps := Int.floor_le _
  rw [mul_one_div, div_le_iff₀ hfps]
  linarith

/-- Updating the frame data field with its own value is the identity. -/
theorem frameView_eta (x : FrameView) : { x with frameData := x.frameData } = x := rfl

/-- Filtering a view list with distinct ids by one member id yields exactly
that member. -/
theorem filter_id_singleton :
    ∀ (l : List FrameView), (l.map FrameView.id).Nodup →
      ∀ v ∈ l, (l.filter fun w => decide (w.id = v.id)) = [v] := by
  intro l
  induction l with
  | nil =>
    intro _ v hv
    cases hv
  | cons u t ih =>
    intro hnd v hv
    rw [List.map_cons] at hnd
    have hndc := List.nodup_cons.mp hnd
    rcases List.mem_cons.mp hv with rfl | hvt
    · rw [List.filter_cons_of_pos (by simp)]
      rw [List.filter_eq_nil_iff.mpr ?_]
      · intro w hw
        simp only [decide_eq_true_eq]
        intro he
        exact hndc.1 (List.mem_map.mpr ⟨w, hw, he⟩)
    · have hne : u.id ≠ v.id := by
        intro he
        exact hndc.1 (List.mem_map.mpr ⟨v, hvt, he.symm⟩)
      rw [List.filter_cons_of_neg (by simp [hne])]
      exact ih hndc.2 v hvt

/-- Unrolling of the inner per-view fold of the multi-view loop: every
iterated view appends its sample to the state view with the same id, and
the operation counter advances by the number of iterated views. -/
theorem viewsFold_spec (time : ℚ) (scoreAt : FrameView → ℚ) :
    ∀ (iter views : List FrameView) (op : ℕ),
      iter.foldl (fun (t : List FrameView × ℕ) v =>
          (appendSampleToViews t.1 v.id { time := time, variance := scoreAt v }, t.2 + 1))
        (views, op)
      = (views.map fun x =>
          { x with frameData := x.frameData ++
              ((iter.filter fun w => decide (w.id = x.id)).map
                fun w => { time := time, variance := scoreAt w }) },
         op + iter.length) := by
  intro iter
  induction iter with
  | nil =>
    intro views op
    simp only [List.foldl_nil, List.filter_nil, List.map_nil, List.append_nil,
      List.length_nil, Nat.add_zero]
    rw [show (fun x : FrameView => { x with frameData := x.frameData }) = id from rfl,
      List.map_id]
  | cons u t ih =>
    intro views op
    rw [List.foldl_cons, ih]
    simp only [Prod.mk.injEq]
    constructor
    · rw [appendSampleToViews, List.map_map]
      refine List.map_congr_left ?_
      intro x hx
      simp only [Function.comp_apply]
      by_cases hid : x.id = u.id
      · rw [if_pos hid]
        rw [List.filter_cons_of_pos (by simp [hid])]
        simp [List.append_assoc]
      · rw [if_neg hid]
        rw [List.filter_cons_of_neg (by simp; intro he; exact hid he.symm)]
    · rw [List.length_cons]
      omega

/-- Unrolling of the multi-view loop over indices that all succeed, starting
from a state whose views are the iterated views with rewritten frame data:
every view receives its own sample for every index, in order. -/
theorem multiLoop_ok (duration interval : ℚ) (tops : ℕ) (iterViews : List FrameView)
    (score : FrameView → ℕ → ℚ) (hnd : (iterViews.map FrameView.id).Nodup) :
    ∀ (is : List ℕ) (A : FrameView → List FrameData) (op : ℕ) (prog : ℤ) (pos : ℚ),
      (∀ i ∈ is, (i : ℚ) * interval ≤ duration) →
      (multiLoop duration interval tops iterViews score (fun _ => some ()) is
        { views := iterViews.map fun w => { w with frameData := A w },
          opCount := op, progress := prog, position := pos }).views
      = iterViews.map fun w =>
          { w with frameData := A w ++ is.map (fun (i : ℕ) =>
              { time := (i : ℚ) * interval, variance := score w i }) } := by
  intro is
  induction is with
  | nil =>
    intro A op prog pos _
    simp [multiLoop]
  | cons i rest ih =>
    intro A op prog pos hts
    have hti : (i : ℚ) * interval ≤ duration := hts i (List.mem_cons_self i rest)
    simp only [multiLoop, if_neg (not_lt.mpr hti)]
    rw [viewsFold_spec]
    have hstep : ((iterViews.map fun w => { w with frameData := A w }).map fun (x : FrameView) =>
        { x with frameData := x.frameData ++
            ((iterViews.filter fun (w : FrameView) => decide (w.id = x.id)).map
              fun (w : FrameView) =>
                ({ time := (i : ℚ) * interval, variance := score w i } : FrameData)) })
        = iterViews.map fun w =>
            { w with frameData := A w ++
                [({ time := (i : ℚ) * interval, variance := score w i } : FrameData)] } := by
      rw [List.map_map]
      refine List.map_congr_left ?_
      intro w hw
      dsimp only [Function.comp_apply]
      rw [filter_id_singleton iterViews hnd w hw]
      rfl
    rw [hstep]
    dsimp only
    rw [ih (fun w => A w ++ [({ time := (i : ℚ) * interval, variance := score w i } : FrameData)])
      _ _ _ (fun j hj => hts j (List.mem_cons_of_mem i hj))]
    refine List.map_congr_left ?_
    intro w _
    simp [List.append_assoc]

/-- C5: a successful planar analysis run replaces the frame data with exactly
the samples at times i / fps for i = 0 .. floor(duration * fps), in
strictly increasing time order, all within the duration; and a successful
multi-view run gives every view exactly those samples with its own scores
(prior frame data being reset, not appended to). -/
theorem runAnalysis_sampling :
    (∀ (video : VideoState) (st : EditorState) (v : ℕ → ℚ),
      0 < st.fps → 0 ≤ video.duration →
      (runAnalysis (fun i => some (v i)) video st).1.frameData =
          (List.range ((⌊video.duration * st.fps⌋).toNat + 1)).map
            (fun i => { time := (i : ℚ) * (1 / st.fps), variance := v i })
        ∧ (runAnalysis (fun i => some (v i)) video st).1.frameData.length =
            (⌊video.duration * st.fps⌋).toNat + 1
        ∧ ((runAnalysis (fun i => some (v i)) video st).1.frameData.map
            FrameData.time).Pairwise (· < ·)
        ∧ (∀ f ∈ (runAnalysis (fun i => some (v i)) video st).1.frameData,
            f.time ≤ video.duration))
    ∧ (∀ (video : VideoState) (st : Editor360State) (score : FrameView → ℕ → ℚ),
      0 < st.fps → 0 ≤ video.duration →
      (st.frameViews.map FrameView.id).Nodup →
      (runMultiViewAnalysis score (fun _ => some ()) video st).1.frameViews =
        st.frameViews.map fun w =>
          { w with
            frameData :=
              (List.range ((⌊video.duration * st.fps⌋).toNat + 1)).map
                (fun (i : ℕ) =>
                  ({ time := (i : ℚ) * (1 / st.fps), variance := score w i } : FrameData)) }) := by
  constructor
  · intro video st v hfps hd
    have hfd : (runAnalysis (fun i => some (v i)) video st).1.frameData =
        (List.range ((⌊video.duration * st.fps⌋).toNat + 1)).map
          (fun i => { time := (i : ℚ) * (1 / st.fps), variance := v i }) := by
      simp only [runAnalysis]
      rw [analysisLoop_ok video.duration (1 / st.fps) ((⌊video.duration * st.fps⌋).toNat)
        (fun i => some (v i)) v _ _
        (fun i hi => sampleTime_le video.duration st.fps hd hfps i
          (Nat.lt_succ_iff.mp (List.mem_range.mp hi)))
        (fun i _ => rfl)]
      simp
    refine ⟨hfd, ?_, ?_, ?_⟩
    · rw [hfd, List.length_map, List.length_range]
    · rw [hfd, List.map_map, List.pairwise_map]
      refine List.Pairwise.imp ?_ (List.pairwise_lt_range _)
      intro a b hab
      exact mul_lt_mul_of_pos_right (by exact_mod_cast hab) (one_div_pos.mpr hfps)
    · intro f hf
      rw [hfd] at hf
      simp only [List.mem_map, List.mem_range] at hf
      obtain ⟨i, hi, rfl⟩ := hf
      exact sampleTime_le video.duration st.fps hd hfps i (Nat.lt_succ_iff.mp hi)
  · intro video st score hfps hd hnd
    simp only [runMultiViewAnalysis]
    rw [multiLoop_ok video.duration (1 / st.fps)
      ((⌊video.duration * st.fps⌋).toNat * st.frameViews.length) st.frameViews score hnd
      (List.range ((⌊video.duration * st.fps⌋).toNat + 1)) (fun _ => []) 0 0 video.position
      (fun i hi => sampleTime_le video.duration st.fps hd hfps i
        (Nat.lt_succ_iff.mp (List.mem_range.mp hi)))]
    simp

/-- The multi-view loop traverses an all-success prefix and continues from
the state that prefix produced. -/
theorem multiLoop_append (duration interval : ℚ) (tops : ℕ) (iterViews : List FrameView)
    (score : FrameView → ℕ → ℚ) (outcome : ℕ → Option Unit) :
    ∀ (is1 is2 : List ℕ) (s : MultiState),
      (∀ i ∈ is1, (i : ℚ) * interval ≤ duration) →
      (∀ i ∈ is1, outcome i = some ()) →
      multiLoop duration interval tops iterViews score outcome (is1 ++ is2) s =
        multiLoop duration interval tops iterViews score outcome is2
          (multiLoop duration interval tops iterViews score outcome is1 s) := by
  intro is1
  induction is1 with
  | nil =>
    intro is2 s _ _
    simp [multiLoop]
  | cons i rest ih =>
    intro is2 s hts hos
    have hti : (i : ℚ) * interval ≤ duration := hts i (List.mem_cons_self i rest)
    have hoi : outcome i = some () := hos i (List.mem_cons_self i rest)
    simp only [List.cons_append, multiLoop, hoi, if_neg (not_lt.mpr hti)]
    exact ih is2 _ (fun j hj => hts j (List.mem_cons_of_mem i hj))
      (fun j hj => hos j (List.mem_cons_of_mem i hj))

/-- Full unrolling of the multi-view loop over indices that all succeed,
starting from a state whose views are the iterated views with rewritten
frame data: every view receives its own sample for every index, the
operation counter advances by one per view per index, progress ends at the
report of the last operation, and the video sits at the last sampled
time. -/
theorem multiLoop_full (duration interval : ℚ) (tops : ℕ) (iterViews : List FrameView)
    (score : FrameView → ℕ → ℚ) (outcome : ℕ → Option Unit)
    (hnd : (iterViews.map FrameView.id).Nodup) :
    ∀ (is : List ℕ) (A : FrameView → List FrameData) (op : ℕ) (prog : ℤ) (pos : ℚ),
      (∀ i ∈ is, (i : ℚ) * interval ≤ duration) →
      (∀ i ∈ is, outcome i = some ()) →
      multiLoop duration interval tops iterViews score outcome is
        { views := iterViews.map fun w => { w with frameData := A w },
          opCount := op, progress := prog, position := pos }
      = { views := iterViews.map fun w =>
            { w with frameData := A w ++ is.map (fun (i : ℕ) =>
                ({ time := (i : ℚ) * interval, variance := score w i } : FrameData)) }
          opCount := op + is.length * iterViews.length
          progress := if is = [] then prog else
            jsRound (((op + is.length * iterViews.length : ℕ) : ℚ) / (tops : ℚ) * 100)
          position := ((is.getLast?).map fun (j : ℕ) => (j : ℚ) * interval).getD pos } := by
  intro is
  induction is with
  | nil =>
    intro A op prog pos _ _
    simp [multiLoop]
  | cons i rest ih =>
    intro A op prog pos hts hos
    have hti : (i : ℚ) * interval ≤ duration := hts i (List.mem_cons_self i rest)
    have hoi : outcome i = some () := hos i (List.mem_cons_self i rest)
    simp only [multiLoop, hoi, if_neg (not_lt.mpr hti)]
    rw [viewsFold_spec]
    dsimp only
    have hstep : ((iterViews.map fun w => { w with frameData := A w }).map fun (x : FrameView) =>
        { x with frameData := x.frameData ++
            ((iterViews.filter fun (w : FrameView) => decide (w.id = x.id)).map
              fun (w : FrameView) =>
                ({ time := (i : ℚ) * interval, variance := score w i } : FrameData)) })
        = iterViews.map fun w =>
            { w with frameData := A w ++
                [({ time := (i : ℚ) * interval, variance := score w i } : FrameData)] } := by
      rw [List.map_map]
      refine List.map_congr_left ?_
      intro w hw
      dsimp only [Function.comp_apply]
      rw [filter_id_singleton iterViews hnd w hw]
      rfl
    rw [hstep]
    rw [ih (fun w => A w ++ [({ time := (i : ℚ) * interval, variance := score w i } : FrameData)])
      (op + iterViews.length) _ _
      (fun j hj => hts j (List.mem_cons_of_mem i hj))
      (fun j hj => hos j (List.mem_cons_of_mem i hj))]
    rcases rest with _ | ⟨j, t⟩
    · simp only [MultiState.mk.injEq]
      refine ⟨by simp, ?_, ?_, by simp⟩
      · simp only [List.length_cons, List.length_nil]
        ring
      · rw [if_pos trivial, if_neg (List.cons_ne_nil i [])]
        simp only [List.length_cons, List.length_nil]
        congr 1
        push_cast
        ring
    · have hne : (j :: t).getLast? ≠ none := by
        simp [List.getLast?_eq_none_iff]
      obtain ⟨l, hl⟩ := Option.ne_none_iff_exists'.mp hne
      simp only [MultiState.mk.injEq]
      refine ⟨by simp [List.append_assoc], ?_, ?_, ?_⟩
      · simp only [List.length_cons]
        ring
      · rw [if_neg (List.cons_ne_nil j t), if_neg (List.cons_ne_nil i (j :: t))]
        simp only [List.length_cons]
        congr 1
        push_cast
        ring
      · simp [List.getLast?_cons_cons, hl]

/-- General shape of an aborted multi-view analysis run: the first k indices
succeed for every view and index k fails. The run keeps the k accumulated
samples of every view, clears the processing flag, restores the video
position, and leaves the progress at the last reported value, which is
zero only when no frame was processed. -/
theorem runMultiViewAnalysis_abort_general (video : VideoState) (st : Editor360State)
    (score : FrameView → ℕ → ℚ) (k : ℕ) (hfps : 0 < st.fps) (hd : 0 ≤ video.duration)
    (hk : k ≤ (⌊video.duration * st.fps⌋).toNat)
    (hnd : (st.frameViews.map FrameView.id).Nodup) :
    runMultiViewAnalysis score (fun i => if i < k then some () else none) video st =
      ({ st with
          isProcessing := false
          frameViews := st.frameViews.map (fun w =>
            { w with frameData := (List.range k).map (fun (i : ℕ) =>
                ({ time := (i : ℚ) * (1 / st.fps), variance := score w i } : FrameData)) })
          progress := if k = 0 then 0 else
            jsRound (((k * st.frameViews.length : ℕ) : ℚ) /
              (((⌊video.duration * st.fps⌋).toNat * st.frameViews.length : ℕ) : ℚ) * 100) },
       video) := by
  have hsplit : List.range ((⌊video.duration * st.fps⌋).toNat + 1) =
      List.range k ++ k ::
        ((List.range ((⌊video.duration * st.fps⌋).toNat - k)).map Nat.succ).map (k + ·) := by
    have hdecomp : (⌊video.duration * st.fps⌋).toNat + 1 =
        k + (((⌊video.duration * st.fps⌋).toNat - k) + 1) := by omega
    rw [hdecomp, List.range_add, List.range_succ_eq_map, List.map_cons, Nat.add_zero]
  have hts : ∀ i ∈ List.range k, (i : ℚ) * (1 / st.fps) ≤ video.duration := by
    intro i hi
    exact sampleTime_le video.duration st.fps hd hfps i
      (le_trans (Nat.le_of_lt (List.mem_range.mp hi)) hk)
  have hos : ∀ i ∈ List.range k,
      (fun i => if i < k then some () else none) i = some () := by
    intro i hi
    exact if_pos (List.mem_range.mp hi)
  have ht0 : (k : ℚ) * (1 / st.fps) ≤ video.duration :=
    sampleTime_le video.duration st.fps hd hfps k hk
  have ho0 : (fun i => if i < k then some () else none) k = none :=
    if_neg (lt_irrefl k)
  simp only [runMultiViewAnalysis]
  rw [hsplit, multiLoop_append video.duration (1 / st.fps)
    ((⌊video.duration * st.fps⌋).toNat * st.frameViews.length) st.frameViews score
    (fun i => if i < k then some () else none) (List.range k) _ _ hts hos,
    multiLoop_full video.duration (1 / st.fps)
    ((⌊video.duration * st.fps⌋).toNat * st.frameViews.length) st.frameViews score
    (fun i => if i < k then some () else none) hnd (List.range k) (fun _ => []) 0 0
    video.position hts hos]
  simp only [multiLoop, ho0, if_neg (not_lt.mpr ht0)]
  rw [Prod.mk.injEq]
  constructor
  · rw [Editor360State.mk.injEq]
    refine ⟨rfl, rfl, rfl, rfl, ?_, rfl, rfl, rfl, ?_, rfl⟩
    · refine List.map_congr_left ?_
      intro w _
      rw [List.nil_append]
    · simp only [List.length_range, Nat.zero_add, List.range_eq_nil]
  · rfl

/-- A video handle for the failure-semantics counterexample: one second of
video with the playback cursor at one half. -/
def cexAnalysisVideo : VideoState :=
  { duration := 1, position := ratHalf }

/-- A planar editor state mid-session: sample rate 2, stale frame data and
progress, processing flag raised. -/
def cexAnalysisState : EditorState :=
  { initialState with
    fps := 2
    frameData := [({ time := 9, variance := 9 } : FrameData)]
    progress := 77
    isProcessing := true }

/-- A decode oracle that succeeds on the first frame and fails on the
second. -/
def cexOutcome : ℕ → Option ℚ :=
  fun i => if i < 1 then some 5 else none

/-- The same oracle for the multi-view driver, whose decode step carries no
score: success on the first frame, failure on the second. -/
def cexOutcomeUnit : ℕ → Option Unit :=
  fun i => if i < 1 then some () else none

/-- A 360 editor state with a single view and sample rate 2, for the
failure-semantics counterexample of the multi-view driver. -/
def cexMultiState : Editor360State :=
  { demoEditor360State with fps := 2 }

/-- General shape of an aborted planar analysis run: the first k indices
succeed and index k fails. The run keeps the k accumulated samples,
clears the processing flag, restores the video position, and leaves the
progress at the last reported value (the report of index k - 1), which is
zero only when no frame was processed. -/
theorem runAnalysis_abort_general (video : VideoState) (st : EditorState) (v : ℕ → ℚ)
    (k : ℕ) (hfps : 0 < st.fps) (hd : 0 ≤ video.duration)
    (hk : k ≤ (⌊video.duration * st.fps⌋).toNat) :
    runAnalysis (fun i => if i < k then some (v i) else none) video st =
      ({ st with
          isProcessing := false
          frameData := (List.range k).map (fun (i : ℕ) =>
            { time := (i : ℚ) * (1 / st.fps), variance := v i })
          progress := if k = 0 then 0 else
            jsRound ((k : ℚ) / (((⌊video.duration * st.fps⌋).toNat : ℕ) : ℚ) * 100) },
       video) := by
  have hsplit : List.range ((⌊video.duration * st.fps⌋).toNat + 1) =
      List.range k ++ k ::
        ((List.range ((⌊video.duration * st.fps⌋).toNat - k)).map Nat.succ).map (k + ·) := by
    have hdecomp : (⌊video.duration * st.fps⌋).toNat + 1 =
        k + (((⌊video.duration * st.fps⌋).toNat - k) + 1) := by omega
    rw [hdecomp, List.range_add, List.range_succ_eq_map, List.map_cons, Nat.add_zero]
  have hts : ∀ i ∈ List.range k, (i : ℚ) * (1 / st.fps) ≤ video.duration := by
    intro i hi
    exact sampleTime_le video.duration st.fps hd hfps i
      (le_trans (Nat.le_of_lt (List.mem_range.mp hi)) hk)
  have hos : ∀ i ∈ List.range k,
      (fun i => if i < k then some (v i) else none) i = some (v i) := by
    intro i hi
    exact if_pos (List.mem_range.mp hi)
  have ht0 : (k : ℚ) * (1 / st.fps) ≤ video.duration :=
    sampleTime_le video.duration st.fps hd hfps k hk
  have ho0 : (fun i => if i < k then some (v i) else none) k = none :=
    if_neg (lt_irrefl k)
  have hprog : ((List.range k).getLast?.map (fun (j : ℕ) =>
      jsRound (((j : ℚ) + 1) / (((⌊video.duration * st.fps⌋).toNat : ℕ) : ℚ) * 100))).getD 0
      = if k = 0 then 0 else
          jsRound ((k : ℚ) / (((⌊video.duration * st.fps⌋).toNat : ℕ) : ℚ) * 100) := by
    cases k with
    | zero => simp
    | succ m =>
      rw [List.range_succ, List.getLast?_concat, if_neg (Nat.succ_ne_zero m),
        Option.map_some', Option.getD_some]
      congr 1
      push_cast
      ring
  simp only [runAnalysis]
  rw [hsplit, analysisLoop_abort video.duration (1 / st.fps)
    ((⌊video.duration * st.fps⌋).toNat) (fun i => if i < k then some (v i) else none) v
    (List.range k) k _ _ hts hos ht0 ho0]
  rw [Prod.mk.injEq]
  constructor
  · rw [EditorState.mk.injEq]
    refine ⟨rfl, rfl, rfl, rfl, rfl, rfl, ?_, by rw [List.nil_append], rfl, rfl⟩
    exact hprog
  · rfl

/-- C3 counterexample: on a planar run with sample rate 2 over a one-second
video that fails at the second frame, the processing flag is cleared, the
first sample is retained and the playback position is restored, but the
progress is left at 50, not cleared to 0 — and the error is only logged,
the run returning normally. The 360 driver behaves the same way: its
single view keeps its first sample and the progress stays at 50. -/
theorem runAnalysis_error_counterexample :
    ((runAnalysis cexOutcome cexAnalysisVideo cexAnalysisState).1.progress = 50
      ∧ ¬ (runAnalysis cexOutcome cexAnalysisVideo cexAnalysisState).1.progress = 0
      ∧ (runAnalysis cexOutcome cexAnalysisVideo cexAnalysisState).1.frameData =
          [{ time := 0, variance := 5 }]
      ∧ (runAnalysis cexOutcome cexAnalysisVideo cexAnalysisState).1.isProcessing = false
      ∧ (runAnalysis cexOutcome cexAnalysisVideo cexAnalysisState).2.position =
          cexAnalysisVideo.position)
    ∧ ((runMultiViewAnalysis (fun _ _ => (5 : ℚ)) cexOutcomeUnit cexAnalysisVideo
          cexMultiState).1.progress = 50
      ∧ ¬ (runMultiViewAnalysis (fun _ _ => (5 : ℚ)) cexOutcomeUnit cexAnalysisVideo
          cexMultiState).1.progress = 0
      ∧ (runMultiViewAnalysis (fun _ _ => (5 : ℚ)) cexOutcomeUnit cexAnalysisVideo
          cexMultiState).1.frameViews.map (fun v => v.frameData) =
          [[{ time := 0, variance := 5 }]]
      ∧ (runMultiViewAnalysis (fun _ _ => (5 : ℚ)) cexOutcomeUnit cexAnalysisVideo
          cexMultiState).1.isProcessing = false
      ∧ (runMultiViewAnalysis (fun _ _ => (5 : ℚ)) cexOutcomeUnit cexAnalysisVideo
          cexMultiState).2.position = cexAnalysisVideo.position) := by
  constructor
  · have houtcome : cexOutcome = fun i => if i < 1 then some ((fun _ => (5 : ℚ)) i) else none := rfl
    have h := runAnalysis_abort_general cexAnalysisVideo cexAnalysisState (fun _ => (5 : ℚ)) 1
      (by norm_num [cexAnalysisState, initialState])
      (by norm_num [cexAnalysisVideo])
      (by norm_num [cexAnalysisVideo, cexAnalysisState, initialState])
    rw [houtcome, h]
    have hfl : ⌊cexAnalysisVideo.duration * cexAnalysisState.fps⌋ = 2 := by
      norm_num [cexAnalysisVideo, cexAnalysisState, initialState]
    have htf : ((⌊cexAnalysisVideo.duration * cexAnalysisState.fps⌋).toNat : ℕ) = 2 := by
      rw [hfl]
      rfl
    refine ⟨?_, ?_, ?_, rfl, rfl⟩
    · show (if (1 : ℕ) = 0 then 0 else
        jsRound ((1 : ℚ) / (((⌊cexAnalysisVideo.duration * cexAnalysisState.fps⌋).toNat : ℕ) : ℚ) * 100)) = 50
      rw [if_neg one_ne_zero, htf]
      norm_num [jsRound]
    · show ¬ (if (1 : ℕ) = 0 then 0 else
        jsRound ((1 : ℚ) / (((⌊cexAnalysisVideo.duration * cexAnalysisState.fps⌋).toNat : ℕ) : ℚ) * 100)) = (0 : ℤ)
      rw [if_neg one_ne_zero, htf]
      norm_num [jsRound]
    · show (List.range 1).map (fun (i : ℕ) =>
          ({ time := (i : ℚ) * (1 / cexAnalysisState.fps), variance := (5 : ℚ) } : FrameData)) =
        [{ time := 0, variance := 5 }]
      norm_num [cexAnalysisState, initialState, List.range_succ]
  · have houtcome : cexOutcomeUnit = fun i => if i < 1 then some () else none := rfl
    have h := runMultiViewAnalysis_abort_general cexAnalysisVideo cexMultiState
      (fun _ _ => (5 : ℚ)) 1
      (by norm_num [cexMultiState, demoEditor360State])
      (by norm_num [cexAnalysisVideo])
      (by norm_num [cexAnalysisVideo, cexMultiState, demoEditor360State])
      (by simp [cexMultiState, demoEditor360State, cexView360])
    rw [houtcome, h]
    have hfl : ⌊cexAnalysisVideo.duration * cexMultiState.fps⌋ = 2 := by
      norm_num [cexAnalysisVideo, cexMultiState, demoEditor360State]
    have htf : ((⌊cexAnalysisVideo.duration * cexMultiState.fps⌋).toNat : ℕ) = 2 := by
      rw [hfl]
      rfl
    have hlen : cexMultiState.frameViews.length = 1 := rfl
    refine ⟨?_, ?_, ?_, rfl, rfl⟩
    · show (if (1 : ℕ) = 0 then 0 else
        jsRound (((1 * cexMultiState.frameViews.length : ℕ) : ℚ) /
          (((⌊cexAnalysisVideo.duration * cexMultiState.fps⌋).toNat *
            cexMultiState.frameViews.length : ℕ) : ℚ) * 100)) = 50
      rw [if_neg one_ne_zero, htf, hlen]
      norm_num [jsRound]
    · show ¬ (if (1 : ℕ) = 0 then 0 else
        jsRound (((1 * cexMultiState.frameViews.length : ℕ) : ℚ) /
          (((⌊cexAnalysisVideo.duration * cexMultiState.fps⌋).toNat *
            cexMultiState.frameViews.length : ℕ) : ℚ) * 100)) = (0 : ℤ)
      rw [if_neg one_ne_zero, htf, hlen]
      norm_num [jsRound]
    · show (cexMultiState.frameViews.map (fun w =>
          { w with frameData := (List.range 1).map (fun (i : ℕ) =>
              ({ time := (i : ℚ) * (1 / cexMultiState.fps), variance := (5 : ℚ) } : FrameData)) })).map
            (fun v => v.frameData) = [[{ time := 0, variance := 5 }]]
      norm_num [cexMultiState, demoEditor360State, cexView360, List.range_succ]

/-- C3 amended: a decode error during an analysis run of either driver aborts
it with no retry: the samples accumulated before the failure are retained
unchanged (per view in the multi-view driver), the processing flag is
cleared and the playback position restored; but the progress field is left
at the last reported value (nonzero whenever at least one frame was
processed and the frame count is positive) rather than cleared, and the
run returns normally (the error is only logged, not rethrown). -/
theorem runAnalysis_error_amended :
    (∀ (video : VideoState) (st : EditorState) (v : ℕ → ℚ) (k : ℕ),
      0 < st.fps → 0 ≤ video.duration →
      k ≤ (⌊video.duration * st.fps⌋).toNat →
      (runAnalysis (fun i => if i < k then some (v i) else none) video st).1.frameData =
          (List.range k).map (fun (i : ℕ) =>
            { time := (i : ℚ) * (1 / st.fps), variance := v i })
        ∧ (runAnalysis (fun i => if i < k then some (v i) else none) video st).1.isProcessing
            = false
        ∧ (runAnalysis (fun i => if i < k then some (v i) else none) video st).2 = video
        ∧ (runAnalysis (fun i => if i < k then some (v i) else none) video st).1.progress
            = (if k = 0 then 0 else
                jsRound ((k : ℚ) / (((⌊video.duration * st.fps⌋).toNat : ℕ) : ℚ) * 100)))
    ∧ (∀ (video : VideoState) (st : Editor360State) (score : FrameView → ℕ → ℚ) (k : ℕ),
      0 < st.fps → 0 ≤ video.duration →
      k ≤ (⌊video.duration * st.fps⌋).toNat →
      (st.frameViews.map FrameView.id).Nodup →
      (runMultiViewAnalysis score (fun i => if i < k then some () else none) video
          st).1.frameViews =
          st.frameViews.map (fun w =>
            { w with frameData := (List.range k).map (fun (i : ℕ) =>
                ({ time := (i : ℚ) * (1 / st.fps), variance := score w i } : FrameData)) })
        ∧ (runMultiViewAnalysis score (fun i => if i < k then some () else none) video
            st).1.isProcessing = false
        ∧ (runMultiViewAnalysis score (fun i => if i < k then some () else none) video
            st).2 = video
        ∧ (runMultiViewAnalysis score (fun i => if i < k then some () else none) video
            st).1.progress
            = (if k = 0 then 0 else
                jsRound (((k * st.frameViews.length : ℕ) : ℚ) /
                  (((⌊video.duration * st.fps⌋).toNat * st.frameViews.length : ℕ) : ℚ) * 100))) := by
  constructor
  · intro video st v k hfps hd hk
    rw [runAnalysis_abort_general video st v k hfps hd hk]
    exact ⟨rfl, rfl, rfl, rfl⟩
  · intro video st score k hfps hd hk hnd
    rw [runMultiViewAnalysis_abort_general video st score k hfps hd hk hnd]
    exact ⟨rfl, rfl, rfl, rfl⟩

/-- Witness for the amended C3 theorem at concrete inputs: a planar run over
a one-second video at rate 2 failing at the third frame keeps its two
samples, ends unprocessed and restores the video handle; a multi-view run
under the same failure keeps two samples in its single view and restores
the handle likewise. -/
theorem runAnalysis_error_amended_witness :
    ((runAnalysis (fun i => if i < 2 then some ((fun _ => (3 : ℚ)) i) else none)
        { duration := 1, position := 0 } cexAnalysisState).1.frameData.length = 2
      ∧ (runAnalysis (fun i => if i < 2 then some ((fun _ => (3 : ℚ)) i) else none)
          { duration := 1, position := 0 } cexAnalysisState).1.isProcessing = false
      ∧ (runAnalysis (fun i => if i < 2 then some ((fun _ => (3 : ℚ)) i) else none)
          { duration := 1, position := 0 } cexAnalysisState).2 =
          { duration := 1, position := 0 })
    ∧ ((runMultiViewAnalysis (fun _ _ => (4 : ℚ)) (fun i => if i < 2 then some () else none)
          { duration := 1, position := 0 } cexMultiState).1.frameViews.map
            (fun v => v.frameData.length) = [2]
      ∧ (runMultiViewAnalysis (fun _ _ => (4 : ℚ)) (fun i => if i < 2 then some () else none)
          { duration := 1, position := 0 } cexMultiState).1.isProcessing = false
      ∧ (runMultiViewAnalysis (fun _ _ => (4 : ℚ)) (fun i => if i < 2 then some () else none)
          { duration := 1, position := 0 } cexMultiState).2 =
          { duration := 1, position := 0 }) := by
  constructor
  · have h := runAnalysis_error_amended.1 { duration := 1, position := 0 } cexAnalysisState
      (fun _ => (3 : ℚ)) 2
      (by norm_num [cexAnalysisState, initialState])
      (by norm_num)
      (by norm_num [cexAnalysisState, initialState])
    refine ⟨?_, h.2.1, h.2.2.1⟩
    rw [h.1, List.length_map, List.length_range]
  · have h := runAnalysis_error_amended.2 { duration := 1, position := 0 } cexMultiState
      (fun _ _ => (4 : ℚ)) 2
      (by norm_num [cexMultiState, demoEditor360State])
      (by norm_num)
      (by norm_num [cexMultiState, demoEditor360State])
      (by simp [cexMultiState, demoEditor360State, cexView360])
    refine ⟨?_, h.2.1, h.2.2.1⟩
    rw [h.1, List.map_map]
    simp [cexMultiState, demoEditor360State]

/-- Witness for C5 at concrete inputs: a two-second video sampled at rate 6
produces exactly 13 samples, and a one-second multi-view run at rate 6
gives its single view exactly 7 samples. -/
theorem runAnalysis_sampling_witness :
    (runAnalysis (fun i => some ((i : ℚ))) { duration := 2, position := 0 }
        initialState).1.frameData.length = 13
    ∧ ((runMultiViewAnalysis (fun _ _ => (5 : ℚ)) (fun _ => some ())
        { duration := 1, position := 0 } demoEditor360State).1.frameViews.map
          (fun v => v.frameData.length)) = [7] := by
  constructor
  · have h := runAnalysis_sampling.1 { duration := 2, position := 0 } initialState
      (fun i => (i : ℚ)) (by norm_num [initialState]) (by norm_num)
    rw [h.2.1]
    have hfl : ⌊({ duration := 2, position := 0 } : VideoState).duration * initialState.fps⌋ = 12 := by
      norm_num [initialState]
    rw [hfl]
    rfl
  · have h := runAnalysis_sampling.2 { duration := 1, position := 0 } demoEditor360State
      (fun _ _ => (5 : ℚ)) (by norm_num [demoEditor360State]) (by norm_num)
      (by simp [demoEditor360State, cexView360])
    rw [h]
    have hfl : ⌊(1 : ℚ) * demoEditor360State.fps⌋ = 6 := by
      norm_num [demoEditor360State]
    have htf : ((⌊(1 : ℚ) * demoEditor360State.fps⌋).toNat) = 6 := by
      rw [hfl]
      rfl
    simp [demoEditor360State, htf]

end SplatTools
